import Mathlib

/-!
Verification of the idempotent batch persistence engine of the
self-sensored repository (`app/db/insert_logic.py`, `app/db/models.py`,
`app/db/batch_operations.py`, `app/api/models.py`).

The Python code is shallowly embedded: in-memory JSON values are an
inductive `Json` type, the relational store is an explicit `DB` state
threaded through the insert functions, async DB calls become pure state
transitions, exceptions become `Except`/`Bool` results exactly where the
source catches them, and `uuid4()` becomes a threaded fresh-id counter.
Cryptographic digests (SHA-256 in `generate_payload_hash`, MD5 in
`generate_metric_hash`) are modelled as ideal (collision-free) hashes of
the canonical serialization: the digest of a value is its canonical form
(all object keys recursively sorted), which is exactly the information
`json.dumps(value, sort_keys=True, default=str)` determines.
-/

namespace SelfSensored

/-- In-memory JSON-like value (the payload dictionaries handled by the
Python code after parsing). Numbers are modelled by their parsed value,
so two float spellings of the same number are the same `Json` value. -/
inductive Json where
  | str : String → Json
  | num : Int → Json
  | bool : Bool → Json
  | null : Json
  | arr : List Json → Json
  | obj : List (String × Json) → Json
deriving Inhabited

mutual

/-- Decidable equality on values (manual because the inductive nests
lists). -/
def decEqJson : (a b : Json) → Decidable (a = b)
  | .str s, .str t =>
    match String.decEq s t with
    | isTrue h => isTrue (h ▸ rfl)
    | isFalse h => isFalse fun hh => h (Json.str.inj hh)
  | .num m, .num n =>
    match decEq m n with
    | isTrue h => isTrue (h ▸ rfl)
    | isFalse h => isFalse fun hh => h (Json.num.inj hh)
  | .bool x, .bool y =>
    match decEq x y with
    | isTrue h => isTrue (h ▸ rfl)
    | isFalse h => isFalse fun hh => h (Json.bool.inj hh)
  | .null, .null => isTrue rfl
  | .arr l, .arr m =>
    match decEqJsonList l m with
    | isTrue h => isTrue (h ▸ rfl)
    | isFalse h => isFalse fun hh => h (Json.arr.inj hh)
  | .obj l, .obj m =>
    match decEqJsonEntries l m with
    | isTrue h => isTrue (h ▸ rfl)
    | isFalse h => isFalse fun hh => h (Json.obj.inj hh)
  | .str _, .num _ => isFalse fun h => Json.noConfusion h
  | .str _, .bool _ => isFalse fun h => Json.noConfusion h
  | .str _, .null => isFalse fun h => Json.noConfusion h
  | .str _, .arr _ => isFalse fun h => Json.noConfusion h
  | .str _, .obj _ => isFalse fun h => Json.noConfusion h
  | .num _, .str _ => isFalse fun h => Json.noConfusion h
  | .num _, .bool _ => isFalse fun h => Json.noConfusion h
  | .num _, .null => isFalse fun h => Json.noConfusion h
  | .num _, .arr _ => isFalse fun h => Json.noConfusion h
  | .num _, .obj _ => isFalse fun h => Json.noConfusion h
  | .bool _, .str _ => isFalse fun h => Json.noConfusion h
  | .bool _, .num _ => isFalse fun h => Json.noConfusion h
  | .bool _, .null => isFalse fun h => Json.noConfusion h
  | .bool _, .arr _ => isFalse fun h => Json.noConfusion h
  | .bool _, .obj _ => isFalse fun h => Json.noConfusion h
  | .null, .str _ => isFalse fun h => Json.noConfusion h
  | .null, .num _ => isFalse fun h => Json.noConfusion h
  | .null, .bool _ => isFalse fun h => Json.noConfusion h
  | .null, .arr _ => isFalse fun h => Json.noConfusion h
  | .null, .obj _ => isFalse fun h => Json.noConfusion h
  | .arr _, .str _ => isFalse fun h => Json.noConfusion h
  | .arr _, .num _ => isFalse fun h => Json.noConfusion h
  | .arr _, .bool _ => isFalse fun h => Json.noConfusion h
  | .arr _, .null => isFalse fun h => Json.noConfusion h
  | .arr _, .obj _ => isFalse fun h => Json.noConfusion h
  | .obj _, .str _ => isFalse fun h => Json.noConfusion h
  | .obj _, .num _ => isFalse fun h => Json.noConfusion h
  | .obj _, .bool _ => isFalse fun h => Json.noConfusion h
  | .obj _, .null => isFalse fun h => Json.noConfusion h
  | .obj _, .arr _ => isFalse fun h => Json.noConfusion h
termination_by structural a => a

/-- Decidable equality for lists of values. -/
def decEqJsonList : (a b : List Json) → Decidable (a = b)
  | [], [] => isTrue rfl
  | [], _ :: _ => isFalse fun h => List.noConfusion h
  | _ :: _, [] => isFalse fun h => List.noConfusion h
  | x :: xs, y :: ys =>
    match decEqJson x y, decEqJsonList xs ys with
    | isTrue h₁, isTrue h₂ => isTrue (by rw [h₁, h₂])
    | isFalse h₁, _ => isFalse fun h => h₁ (List.cons.inj h).1
    | _, isFalse h₂ => isFalse fun h => h₂ (List.cons.inj h).2
termination_by structural a => a

/-- Decidable equality for entry lists. -/
def decEqJsonEntries : (a b : List (String × Json)) → Decidable (a = b)
  | [], [] => isTrue rfl
  | [], _ :: _ => isFalse fun h => List.noConfusion h
  | _ :: _, [] => isFalse fun h => List.noConfusion h
  | (k₁, v₁) :: xs, (k₂, v₂) :: ys =>
    match String.decEq k₁ k₂, decEqJson v₁ v₂, decEqJsonEntries xs ys with
    | isTrue h₀, isTrue h₁, isTrue h₂ => isTrue (by rw [h₀, h₁, h₂])
    | isFalse h₀, _, _ =>
      isFalse fun h => h₀ (congrArg Prod.fst (List.cons.inj h).1)
    | _, isFalse h₁, _ =>
      isFalse fun h => h₁ (congrArg Prod.snd (List.cons.inj h).1)
    | _, _, isFalse h₂ => isFalse fun h => h₂ (List.cons.inj h).2
termination_by structural a => a

end

instance : DecidableEq Json := decEqJson

/-- Key-based order used to model `sort_keys=True`. -/
def entryLE (a b : String × Json) : Prop := a.1 ≤ b.1

/-- Strict key order, used to show that sorting nodup-key entry lists is
injective up to permutation. -/
def entryLT (a b : String × Json) : Prop := a.1 < b.1

instance : DecidableRel entryLE := fun a b => inferInstanceAs (Decidable (a.1 ≤ b.1))

instance : IsTotal (String × Json) entryLE := ⟨fun a b => le_total a.1 b.1⟩

instance : IsTrans (String × Json) entryLE := ⟨fun _ _ _ h₁ h₂ => le_trans h₁ h₂⟩

instance : IsAntisymm (String × Json) entryLT :=
  ⟨fun _ _ h₁ h₂ => ((lt_asymm h₁) h₂).elim⟩

/-- Sorting of an object's entries by key: the effect of
`json.dumps(..., sort_keys=True)` on one mapping level. -/
def sortEntries (l : List (String × Json)) : List (String × Json) :=
  List.insertionSort entryLE l

mutual

/-- Canonical form of a value: every object's entries recursively sorted
by key. `json.dumps(v, sort_keys=True, default=str)` serializes exactly
the canonical form, so two values have equal dumps iff they have equal
canonical forms. -/
def canonicalize : Json → Json
  | .str s => .str s
  | .num n => .num n
  | .bool b => .bool b
  | .null => .null
  | .arr l => .arr (canonList l)
  | .obj l => .obj (sortEntries (canonEntries l))
termination_by structural j => j

/-- Canonical forms of a list of values. -/
def canonList : List Json → List Json
  | [] => []
  | j :: l => canonicalize j :: canonList l
termination_by structural l => l

/-- Canonical forms of an object's entries (values canonicalized,
order untouched; sorting happens in `canonicalize`). -/
def canonEntries : List (String × Json) → List (String × Json)
  | [] => []
  | e :: l => (e.1, canonicalize e.2) :: canonEntries l
termination_by structural l => l

end

mutual

/-- Well-formedness of a value as produced by Python's JSON layer:
every object has duplicate-free keys (Python dicts cannot repeat a key). -/
def wfJson : Json → Bool
  | .arr l => wfList l
  | .obj l => decide ((l.map Prod.fst).Nodup) && wfEntries l
  | _ => true
termination_by structural j => j

/-- Well-formedness of each value in a list. -/
def wfList : List Json → Bool
  | [] => true
  | j :: l => wfJson j && wfList l
termination_by structural l => l

/-- Well-formedness of each value of an entry list. -/
def wfEntries : List (String × Json) → Bool
  | [] => true
  | e :: l => wfJson e.2 && wfEntries l
termination_by structural l => l

end

/-- Two values are semantically identical up to mapping key order: the
least congruence that contains reordering the entries of any
(duplicate-key-free) object. This is the sense in which the spec's
"two semantically identical inputs differing only in key order" is read. -/
inductive JEq : Json → Json → Prop where
  | refl (j : Json) : JEq j j
  | symm {a b : Json} : JEq a b → JEq b a
  | trans {a b c : Json} : JEq a b → JEq b c → JEq a c
  | arrHead {a b : Json} (l : List Json) :
      JEq a b → JEq (.arr (a :: l)) (.arr (b :: l))
  | arrTail {l₁ l₂ : List Json} (a : Json) :
      JEq (.arr l₁) (.arr l₂) → JEq (.arr (a :: l₁)) (.arr (a :: l₂))
  | objHead {v₁ v₂ : Json} (k : String) (l : List (String × Json)) :
      JEq v₁ v₂ → JEq (.obj ((k, v₁) :: l)) (.obj ((k, v₂) :: l))
  | objTail {l₁ l₂ : List (String × Json)} (e : String × Json) :
      JEq (.obj l₁) (.obj l₂) → JEq (.obj (e :: l₁)) (.obj (e :: l₂))
  | objPerm {l₁ l₂ : List (String × Json)} :
      l₁.Perm l₂ → (l₁.map Prod.fst).Nodup → JEq (.obj l₁) (.obj l₂)

/-- Embedding of `generate_payload_hash` (insert_logic.py lines 36-40):
`sha256(json.dumps(payload_data, sort_keys=True, default=str))`. The
digest is modelled as the canonical (key-sorted) form itself, i.e. the
SHA-256 of the canonical serialization under an ideal, collision-free
hash. -/
def generate_payload_hash (payload_data : Json) : Json :=
  canonicalize payload_data

/-- A database row: an association list from column name to value, the
shape of the record dictionaries built throughout insert_logic.py. -/
abbrev Row := List (String × Json)

/-- Generated uuid4 identifiers, modelled as a fresh-counter supply. -/
abbrev Uuid := Nat

/-- Value of a named column of a row. -/
def rowGet (r : Row) (f : String) : Option Json :=
  (r.find? (fun kv => kv.1 == f)).map (fun kv => kv.2)

/-- Embedding of `generate_metric_hash` (insert_logic.py lines 43-48):
`md5(json.dumps({"name": name, "data": data}, sort_keys=True, default=str))`,
with MD5 modelled as an ideal hash of the canonical serialization. -/
def generate_metric_hash (metric_name : String) (metric_data : List Row) : Json :=
  canonicalize (.obj [("name", .str metric_name), ("data", .arr (metric_data.map Json.obj))])

/-! ## Upsert Executor

`INSERT ... VALUES (chunk) ON CONFLICT (key) DO UPDATE SET f = EXCLUDED.f`
(and the `DO NOTHING` variant), processed row by row as PostgreSQL does. -/

/-- Natural-key collision between an existing row and an incoming row. -/
def keyMatches (keyFields : List String) (old incoming : Row) : Bool :=
  keyFields.all (fun f => rowGet old f == rowGet incoming f)

/-- Effect of `DO UPDATE SET f = EXCLUDED.f for f in updFields` on the
conflicting row: every listed column takes the incoming row's value (the
insert's default `NULL` if the incoming record omits it); every other
column keeps its old value. -/
def applyUpdate (updFields : List String) (old incoming : Row) : Row :=
  old.map (fun kv =>
    if updFields.contains kv.1 then (kv.1, (rowGet incoming kv.1).getD Json.null) else kv)

/-- One conflict-aware row write into a table: on natural-key collision
with an existing row, update it in place per `upd` (`none` = DO NOTHING,
`some updFields` = DO UPDATE); otherwise append the row. -/
def upsertRecord (keyFields : List String) (upd : Option (List String)) :
    List Row → Row → List Row
  | [], r => [r]
  | old :: rest, r =>
    if keyMatches keyFields old r then
      (match upd with
       | none => old
       | some us => applyUpdate us old r) :: rest
    else old :: upsertRecord keyFields upd rest r

/-- One conflict-aware multi-row statement: the chunk's rows applied in
order. -/
def upsertChunk (keyFields : List String) (upd : Option (List String))
    (tbl : List Row) (chunk : List Row) : List Row :=
  chunk.foldl (upsertRecord keyFields upd) tbl

/-- Generic association-list lookup (Python `dict.get`). -/
def lookup {α : Type} (l : List (String × α)) (k : String) : Option α :=
  (l.find? (fun kv => kv.1 == k)).map (fun kv => kv.2)

/-- The `conflict_handlers` registry of `insert_specialized_data_idempotent`
(insert_logic.py lines 332-394): metric type ↦ (index_elements, set_). -/
def conflict_handlers : List (String × List String × List String) := [
  ("handwashing", ["metric_id", "date"], ["qty", "value", "source"]),
  ("toothbrushing", ["metric_id", "date"], ["qty", "value", "source"]),
  ("blood_pressure", ["metric_id", "date"], ["systolic", "diastolic"]),
  ("heart_rate", ["metric_id", "date", "context"], ["min", "avg", "max", "source"]),
  ("heart_rate_notifications", ["metric_id", "start", "end"],
    ["threshold", "heart_rate", "heart_rate_variation"]),
  ("symptom", ["metric_id", "start", "name"], ["end", "severity", "user_entered", "source"]),
  ("symptoms", ["metric_id", "start", "name"], ["end", "severity", "user_entered", "source"]),
  ("state_of_mind", ["metric_id", "start", "kind"],
    ["end", "valence", "valence_classification", "metadata_json", "labels", "associations"]),
  ("sleep_analysis", ["metric_id", "start_date", "end_date"], ["value", "qty", "source"]),
  ("blood_glucose", ["metric_id", "date", "meal_time"], ["qty"]),
  ("sexual_activity", ["metric_id", "date"],
    ["unspecified", "protection_used", "protection_not_used"]),
  ("insulin_delivery", ["metric_id", "date", "reason"], ["qty"]),
  ("ecg", ["metric_id", "start"],
    ["end", "classification", "severity", "average_heart_rate",
     "number_of_voltage_measurements", "sampling_frequency", "source",
     "voltage_measurements"])]

/-! ## Batch Chunker -/

/-- The `while chunk := list(islice(it, size))` loop of `chunked_iterable`
(insert_logic.py lines 235-238): yield successive slices, stopping at the
first empty one; `islice(it, 0)` is always empty, so size 0 yields no
chunks at all. The loop consumes at least one element per iteration when
the size is nonzero, so the input length bounds the number of iterations;
the recursion is bounded by that fuel to stay structural. -/
def chunkLoop {α : Type} : Nat → List α → Nat → List (List α)
  | 0, _, _ => []
  | _ + 1, [], _ => []
  | fuel + 1, x :: xs, size =>
    if size = 0 then []
    else (x :: xs).take size :: chunkLoop fuel ((x :: xs).drop size) size

/-- Embedding of `chunked_iterable` (insert_logic.py lines 235-238). -/
def chunked_iterable {α : Type} (l : List α) (size : Nat) : List (List α) :=
  chunkLoop l.length l size

/-- Chunk size of the generic quantity path (insert_logic.py lines 272-274)
and of `insert_workout_points` / `insert_route_points` (lines 534-535 and
569-570): `min(batch_size, max_params // len(records[0].keys()))`. -/
def effective_batch_size_quantity (batch_size max_params numKeys : Nat) : Nat :=
  min batch_size (max_params / numKeys)

/-- Chunk size of the specialized path (insert_logic.py lines 399-403):
`max(1, min(batch_size, max_params // len(records[0].keys())))`. -/
def effective_batch_size_specialized (batch_size max_params numKeys : Nat) : Nat :=
  max 1 (min batch_size (max_params / numKeys))

/-- Which of the two batch-size formulas a write path uses. -/
inductive BatchFormula where
  | quantityLike
  | specializedLike
deriving DecidableEq

/-- An entity type together with the number of fields its records carry
(the keys of the record dictionaries the code builds for it) and the
batch-size formula of its write path. -/
structure ChunkSpec where
  entity : String
  fieldsPerRecord : Nat
  formula : BatchFormula
deriving DecidableEq

/-- Chunk size the code computes for this entity type, with the default
arguments `batch_size=500`, `max_params=200`. -/
def ChunkSpec.chunkSize (c : ChunkSpec) : Nat :=
  match c.formula with
  | .quantityLike => effective_batch_size_quantity 500 200 c.fieldsPerRecord
  | .specializedLike => effective_batch_size_specialized 500 200 c.fieldsPerRecord

/-- Field counts per entity type, read off the record dictionaries the
code builds: the quantity record (lines 258-264: id, metric_id, date, qty,
source), the workout point record (lines 522-529: id, workout_id, stream,
date, qty, units), the route point record (lines 557-565: id, workout_id,
lat, lon, altitude, timestamp), and for each specialized type the fields
of its API model (app/api/models.py) dumped without `id`, with
`timestamp` renamed to `date` and `metadata` to `metadata_json`, plus the
added `id` and `metric_id` (lines 307-323). -/
def entityChunkSpecs : List ChunkSpec := [
  ⟨"quantity_timestamp", 5, .quantityLike⟩,
  ⟨"workout_point", 6, .quantityLike⟩,
  ⟨"workout_route_point", 6, .quantityLike⟩,
  ⟨"blood_pressure", 5, .specializedLike⟩,
  ⟨"heart_rate", 8, .specializedLike⟩,
  ⟨"sleep_analysis", 7, .specializedLike⟩,
  ⟨"blood_glucose", 5, .specializedLike⟩,
  ⟨"sexual_activity", 6, .specializedLike⟩,
  ⟨"hygiene_event", 6, .specializedLike⟩,
  ⟨"insulin_delivery", 5, .specializedLike⟩,
  ⟨"symptom", 8, .specializedLike⟩,
  ⟨"state_of_mind", 10, .specializedLike⟩,
  ⟨"ecg", 11, .specializedLike⟩,
  ⟨"heart_rate_notification", 7, .specializedLike⟩]

/-! ## Relational state

The store: the payload table and metric table of app/db/models.py
(with their declared unique constraints enforced by the insert logic
below), and the data tables keyed by table name. Workout tables are
untouched by the claims under verification and are representable in
`tables` like any data table. -/

/-- One row of `health_payload` (models.py lines 31-39): unique on
`payload_hash`. -/
structure PayloadRow where
  id : Uuid
  payloadHash : Json
  receivedAt : Nat
deriving DecidableEq

/-- One row of `health_metric` (models.py lines 53-72). models.py declares
two unique constraints: `uq_health_metric_payload_name` on
(payload_id, name) and `uq_health_metric_data` on
(payload_id, name, data_hash). -/
structure MetricRow where
  id : Uuid
  payloadId : Uuid
  name : String
  units : String
  dataHash : Json
deriving DecidableEq

/-- The relational store. -/
structure DB where
  payloads : List PayloadRow
  metrics : List MetricRow
  tables : List (String × List Row)
deriving DecidableEq

/-- Rows of a named data table. -/
def DB.table (db : DB) (t : String) : List Row :=
  (lookup db.tables t).getD []

/-- Replace the rows of a named data table. -/
def DB.setTable (db : DB) (t : String) (rows : List Row) : DB :=
  { db with
    tables :=
      if db.tables.any (fun kv => kv.1 == t) then
        db.tables.map (fun kv => if kv.1 == t then (kv.1, rows) else kv)
      else db.tables ++ [(t, rows)] }

/-- Embedding of `check_payload_exists` (insert_logic.py lines 51-58). -/
def check_payload_exists (payload_hash : Json) (db : DB) : Option Uuid :=
  (db.payloads.find? (fun r => r.payloadHash == payload_hash)).map (fun r => r.id)

/-- The payload admission write (insert_logic.py lines 98-110):
`INSERT INTO health_payload VALUES (id, hash) ON CONFLICT (payload_hash)
DO UPDATE SET received_at = EXCLUDED.received_at RETURNING id`. On
collision the existing row's `received_at` is refreshed and its id is
returned; otherwise the new row is inserted and the new id returned. -/
def upsertPayload (payload_hash : Json) (newId : Uuid) (now : Nat) (db : DB) : DB × Uuid :=
  match db.payloads.find? (fun r => r.payloadHash == payload_hash) with
  | some r =>
    ({ db with
       payloads := db.payloads.map fun p =>
         if p.payloadHash == payload_hash then { p with receivedAt := now } else p },
     r.id)
  | none => ({ db with payloads := db.payloads ++ [⟨newId, payload_hash, now⟩] }, newId)

/-- A validated metric group (app/api/models.py `HealthMetric`): name,
units, and data entries, each entry being the dictionary its
`model_dump()` produces. -/
structure Metric where
  name : String
  units : String
  data : List Row
deriving DecidableEq

/-- A validated payload (app/api/models.py `HealthPayload`). Workouts are
omitted: every claim under verification concerns the metric path, and the
workout sub-path's only claim-relevant datum (its chunk sizing) is
captured in `entityChunkSpecs`. -/
structure Payload where
  metrics : List Metric
deriving DecidableEq

/-- The `SPECIALIZED_DB_MODELS` registry (insert_logic.py lines 19-33):
metric type ↦ target table. -/
def SPECIALIZED_DB_MODELS : List (String × String) := [
  ("blood_pressure", "blood_pressure"),
  ("heart_rate", "heart_rate"),
  ("sleep_analysis", "sleep_analysis"),
  ("blood_glucose", "blood_glucose"),
  ("sexual_activity", "sexual_activity"),
  ("handwashing", "hygiene_event"),
  ("toothbrushing", "hygiene_event"),
  ("insulin_delivery", "insulin_delivery"),
  ("symptom", "symptom"),
  ("symptoms", "symptom"),
  ("state_of_mind", "state_of_mind"),
  ("ecg", "ecg"),
  ("heart_rate_notifications", "heart_rate_notification")]

/-- One record of the generic quantity path (insert_logic.py lines
257-265). The code calls `entry.get_primary_date()`, which the
repository's tests assert on its models but whose definition is not under
src. Modelled from the spec: the generic data-record lifecycle is
`{date, quantity, source}`, so the primary date is the entry's date; an
entry on which the attribute lookups raise is skipped (lines 266-267),
here one missing `date` or `qty`. -/
def buildQuantityRecord (metricId rid : Uuid) (entry : Row) : Option Row :=
  match rowGet entry ("date"), rowGet entry ("qty") with
  | some d, some q =>
    some [("id", Json.num rid), ("metric_id", Json.num metricId), ("date", d), ("qty", q),
          ("source", (rowGet entry ("source")).getD Json.null)]
  | _, _ => none

/-- The record-building loop of the quantity path, threading the uuid
supply (one generated id per kept record). -/
def buildQuantityRecords (metricId : Uuid) : List Row → Uuid → List Row × Uuid
  | [], nid => ([], nid)
  | e :: es, nid =>
    match buildQuantityRecord metricId nid e with
    | some r =>
      let p := buildQuantityRecords metricId es (nid + 1)
      (r :: p.1, p.2)
    | none => buildQuantityRecords metricId es nid

/-- Embedding of `insert_quantity_data_idempotent` (insert_logic.py lines
241-285): build records, compute the effective batch size from the first
record's key count, and upsert each chunk into `quantity_timestamp` with
conflict key (metric_id, date, source) updating `qty` and `id`. -/
def insert_quantity_data_idempotent (data_entries : List Row) (metric_id : Uuid)
    (db : DB) (nid : Uuid) : DB × Uuid :=
  if data_entries.isEmpty then (db, nid)
  else
    let p := buildQuantityRecords metric_id data_entries nid
    match p.1 with
    | [] => (db, p.2)
    | r0 :: _ =>
      let ebs := effective_batch_size_quantity 500 200 r0.length
      let tbl := (chunked_iterable p.1 ebs).foldl
        (fun t c => upsertChunk ["metric_id", "date", "source"] (some ["qty", "id"]) t c)
        (db.table ("quantity_timestamp"))
      (db.setTable ("quantity_timestamp") tbl, p.2)

/-- One record of the specialized path (insert_logic.py lines 305-324):
the entry's dump without `id`, `timestamp` renamed to `date`, for
state_of_mind `metadata` renamed to `metadata_json`, plus the generated
`id` and the owning `metric_id`. -/
def buildSpecializedRecord (metric_type : String) (metricId rid : Uuid) (entry : Row) : Row :=
  let r := entry.filter (fun kv => kv.1 != "id")
  let r := r.map (fun kv => if kv.1 == "timestamp" then (("date" : String), kv.2) else kv)
  let r :=
    if metric_type == "state_of_mind" then
      r.map (fun kv => if kv.1 == "metadata" then (("metadata_json" : String), kv.2) else kv)
    else r
  r ++ [("id", Json.num rid), ("metric_id", Json.num metricId)]

/-- The record-building loop of the specialized path with the uuid
supply threaded. -/
def buildSpecializedRecords (metric_type : String) (metricId : Uuid) :
    List Row → Uuid → List Row × Uuid
  | [], nid => ([], nid)
  | e :: es, nid =>
    let r := buildSpecializedRecord metric_type metricId nid e
    let p := buildSpecializedRecords metric_type metricId es (nid + 1)
    (r :: p.1, p.2)

/-- Embedding of `insert_specialized_data_idempotent` (insert_logic.py
lines 288-423). The conflict policy comes from `conflict_handlers`; every
type in `SPECIALIZED_DB_MODELS` has a handler, so the no-handler
`on_conflict_do_nothing()` fallback (lines 414-416) is unreachable and
modelled as a plain append. -/
def insert_specialized_data_idempotent (data_entries : List Row) (metric_id : Uuid)
    (table metric_type : String) (db : DB) (nid : Uuid) : DB × Uuid :=
  if data_entries.isEmpty then (db, nid)
  else
    let p := buildSpecializedRecords metric_type metric_id data_entries nid
    match p.1 with
    | [] => (db, p.2)
    | r0 :: _ =>
      let handler := lookup conflict_handlers metric_type
      let ebs := effective_batch_size_specialized 500 200 r0.length
      let tbl := (chunked_iterable p.1 ebs).foldl
        (fun t c =>
          match handler with
          | some kfuf => upsertChunk kfuf.1 (some kfuf.2) t c
          | none => t ++ c)
        (db.table table)
      (db.setTable table tbl, p.2)

/-- The data dispatch of `insert_metric_idempotent` (insert_logic.py lines
217-226): specialized table when the lowercased name is registered,
otherwise the generic quantity table. -/
def insertMetricData (metric : Metric) (metricId : Uuid) (db : DB) (nid : Uuid) : DB × Uuid :=
  let metric_type := metric.name.toLower
  match lookup SPECIALIZED_DB_MODELS metric_type with
  | none => insert_quantity_data_idempotent metric.data metricId db nid
  | some table => insert_specialized_data_idempotent metric.data metricId table metric_type db nid

/-- Fault injection for the storage layer: whether the payload admission
write raises, whether the final commit raises, and the names of metrics
whose processing raises a storage error scoped to that metric (injected
right after the metric row insert, before the data writes). -/
structure FaultModel where
  payloadInsertFails : Bool
  commitFails : Bool
  metricFails : List String
deriving DecidableEq

/-- The dedup SELECT of insert_logic.py lines 182-190: does the metric
table hold a row with this (payload, name, data fingerprint) triple? -/
def tripleIn (ms : List MetricRow) (payload_id : Uuid) (name : String) (h : Json) : Bool :=
  ms.any fun r => r.payloadId == payload_id && r.name == name && r.dataHash == h

/-- Does the metric table hold a row with this (payload, name) pair — the
collision test of the `uq_health_metric_payload_name` unique constraint
(models.py line 56)? -/
def pairIn (ms : List MetricRow) (payload_id : Uuid) (name : String) : Bool :=
  ms.any fun r => r.payloadId == payload_id && r.name == name

/-- The payload's open transaction: the working (uncommitted) state and
whether the transaction has been aborted by a failed SQL statement. One
payload runs in ONE transaction with no savepoints (the session of
`get_db`; the only commit is insert_logic.py line 145), so after any
failed statement PostgreSQL puts the transaction in the aborted state:
every further statement raises InFailedSQLTransaction (25P02) and the
final commit cannot succeed — the Python-level `except`/`continue` of
the per-metric loop does not restore it. -/
structure Txn where
  db : DB
  aborted : Bool
deriving DecidableEq

/-- Embedding of `insert_metric_idempotent` (insert_logic.py lines
161-232). Returns the transaction, the advanced uuid supply, and True
iff the metric was processed (False = skipped). Branches:
* on a transaction already aborted by an earlier failed statement, the
  dedup SELECT itself raises (25P02); caught at line 230: skipped, no
  effect;
* the dedup SELECT (lines 182-190) finds the (payload, name, data
  fingerprint) triple: clean duplicate skip (line 193), no statement
  fails, the transaction stays live;
* the metric row INSERT violates the additional unique constraint
  `uq_health_metric_payload_name` on (payload_id, name) declared at
  models.py line 56, which the ON CONFLICT (payload_id, name, data_hash)
  arbiter (line 206) does not cover: the statement raises a unique
  violation, caught at line 230 (skipped, no row written) — and the
  failed statement aborts the transaction;
* the metric row is written, then a storage fault scoped to this
  metric's processing raises; caught at line 230 (skipped) — and aborts
  the transaction (the uncommitted metric row stays in the working
  state; it can only be discarded with everything else at rollback);
* otherwise the data rows are written and the metric is processed. -/
def insert_metric_idempotent (env : FaultModel) (metric : Metric) (payload_id : Uuid)
    (t : Txn) (nid : Uuid) : Txn × Uuid × Bool :=
  let h := generate_metric_hash metric.name metric.data
  if t.aborted then (t, nid, false)
  else if tripleIn t.db.metrics payload_id metric.name h then
    (t, nid, false)
  else if pairIn t.db.metrics payload_id metric.name then
    ({ t with aborted := true }, nid, false)
  else
    let metricId := nid
    let db1 := { t.db with
      metrics := t.db.metrics ++ [⟨metricId, payload_id, metric.name, metric.units, h⟩] }
    if env.metricFails.contains metric.name then (⟨db1, true⟩, nid + 1, false)
    else if metric.data.isEmpty then (⟨db1, false⟩, nid + 1, true)
    else
      let q := insertMetricData metric metricId db1 (nid + 1)
      (⟨q.1, false⟩, q.2, true)

/-- The per-metric loop of `insert_health_data` (insert_logic.py lines
124-131), returning also the list of per-metric outcomes in order. -/
def processMetrics (env : FaultModel) (ms : List Metric) (payload_id : Uuid)
    (t : Txn) (nid : Uuid) : Txn × Uuid × List Bool :=
  match ms with
  | [] => (t, nid, [])
  | m :: rest =>
    let s := insert_metric_idempotent env m payload_id t nid
    let u := processMetrics env rest payload_id s.1 s.2.1
    (u.1, u.2.1, s.2.2 :: u.2.2)

/-- Result statuses of `insert_health_data`; `mixed` models the source's
"partial_success". -/
inductive IngestStatus where
  | success
  | mixed
  | duplicate
deriving DecidableEq

/-- The result record of `insert_health_data` (message string omitted). -/
structure InsertResult where
  status : IngestStatus
  payload_id : Uuid
  metrics_processed : Nat
  metrics_skipped : Nat
deriving DecidableEq

/-- Storage-layer faults re-raised by `insert_health_data`: a failed
payload admission insert, a failed commit, and a commit attempted on a
transaction that an earlier failed statement — possibly one scoped to a
single metric — left aborted (SQLAlchemy raises PendingRollbackError /
the driver InFailedSQLTransaction at `db.commit()`). -/
inductive StorageFault where
  | payloadInsertFault
  | commitFault
  | abortedTxnCommitFault
deriving DecidableEq

/-- Embedding of `insert_health_data` (insert_logic.py lines 61-158), the
ingestion coordinator. The returned `DB` is the committed state visible
after the call: on any storage fault inside the `try` block the code runs
`db.rollback()` and re-raises (lines 155-158), so the committed state is
the input state; on the early duplicate returns nothing was committed
either. The per-metric loop runs inside the payload's single
no-savepoint transaction: if any of its statements failed, the
transaction is aborted and `db.commit()` (line 145) raises instead of
persisting — caught at line 155, rolled back, re-raised. The uuid supply
model: the payload id is `nid`, metric and data row ids are drawn from
`nid + 1` upward. -/
def insertHealthData (env : FaultModel) (payload : Payload) (raw_payload : Json)
    (now : Nat) (nid : Uuid) (db : DB) : DB × Except StorageFault InsertResult :=
  let payload_hash := generate_payload_hash raw_payload
  match check_payload_exists payload_hash db with
  | some pid => (db, .ok ⟨.duplicate, pid, 0, payload.metrics.length⟩)
  | none =>
    if env.payloadInsertFails then (db, .error .payloadInsertFault)
    else
      let a := upsertPayload payload_hash nid now db
      if a.2 != nid then
        (db, .ok ⟨.duplicate, a.2, 0, payload.metrics.length⟩)
      else
        let t := processMetrics env payload.metrics a.2 ⟨a.1, false⟩ (nid + 1)
        let processed := t.2.2.count true
        let skipped := t.2.2.count false
        let status := if skipped == 0 then IngestStatus.success else IngestStatus.mixed
        if env.commitFails then (db, .error .commitFault)
        else if t.1.aborted then (db, .error .abortedTxnCommitFault)
        else (t.1.db, .ok ⟨status, a.2, processed, skipped⟩)

/-! ## Two concurrent writers

The admission fragment of `insert_health_data` run by two writers against
the shared store, at the granularity the storage layer serializes: each
writer's `check_payload_exists` and its admission upsert are atomic store
operations; everything between them is local. -/

/-- A writer's control point within the admission fragment. -/
inductive WPhase where
  | start
  | checked
  | admitted (pid : Uuid)
  | dupDone (res : InsertResult)
deriving DecidableEq

/-- One writer: its generated payload id, its clock, the metric count of
its (identical) payload, and its control point. -/
structure WriterState where
  genId : Uuid
  now : Nat
  numMetrics : Nat
  phase : WPhase
deriving DecidableEq

/-- One atomic store step of a writer (insert_logic.py lines 81-121):
from `start`, the existence check — an existing row short-circuits to the
duplicate result (lines 83-91); from `checked`, the conflict-aware
admission insert — a returned id differing from the generated one means a
concurrent writer won and yields the duplicate result (lines 112-121),
otherwise the writer is admitted and proceeds to metric work. Writers
already done do nothing. -/
def writerStep (payload_hash : Json) (w : WriterState) (db : DB) : WriterState × DB :=
  match w.phase with
  | .start =>
    match check_payload_exists payload_hash db with
    | some pid => ({ w with phase := .dupDone ⟨.duplicate, pid, 0, w.numMetrics⟩ }, db)
    | none => ({ w with phase := .checked }, db)
  | .checked =>
    let a := upsertPayload payload_hash w.genId w.now db
    if a.2 != w.genId then
      ({ w with phase := .dupDone ⟨.duplicate, a.2, 0, w.numMetrics⟩ }, a.1)
    else
      ({ w with phase := .admitted a.2 }, a.1)
  | _ => (w, db)

/-- Run an interleaving: `true` steps writer A, `false` steps writer B. -/
def runSchedule (payload_hash : Json) :
    List Bool → DB → WriterState → WriterState → DB × WriterState × WriterState
  | [], db, a, b => (db, a, b)
  | true :: s, db, a, b =>
    let p := writerStep payload_hash a db
    runSchedule payload_hash s p.2 p.1 b
  | false :: s, db, a, b =>
    let p := writerStep payload_hash b db
    runSchedule payload_hash s p.2 a p.1

/-! ## The optimized batch path (app/db/batch_operations.py) -/

/-- Python runtime errors surfaced by the optimized path. -/
inductive PyError where
  | nameError (name : String)
deriving DecidableEq

/-- Embedding of `BatchProcessor.insert_metric_batch`
(batch_operations.py lines 77-143). After building `metric_records` (one
per metric) the guard `if metric_records:` enters a block whose first
statement (lines 116-120) evaluates the undefined name `records` in the
conditional expression's test (then `batch_size` and `chunked_iterable`,
also undefined in that scope): Python raises NameError as soon as the
block runs, so any nonempty metric list errors; with no metrics the block
is skipped and (0, 0) is returned. (Separately, the module's import of
`METRIC_CONFIGS` and `TimestampedModel` from app.api.models — which
defines neither — would already raise ImportError at import time; the
model charitably continues past it, the NameError alone settles the
claims.) -/
def insert_metric_batch (metrics : List Metric) (_payload_id : Uuid) (db : DB) (nid : Uuid) :
    Except PyError (DB × Uuid × Nat × Nat) :=
  if metrics.isEmpty then .ok (db, nid, 0, 0)
  else .error (.nameError ("records"))

/-- Embedding of `insert_health_data_optimized` (batch_operations.py lines
385-438): same hash and existence check as the primary path, then
`insert_payload_idempotent` (identical to the primary admission upsert)
and `insert_metric_batch` inside `batch_transaction`, which commits on
success and on any exception rolls back and re-raises. -/
def insert_health_data_optimized (payload : Payload) (raw_payload : Json)
    (now : Nat) (nid : Uuid) (db : DB) : DB × Except PyError InsertResult :=
  let payload_hash := generate_payload_hash raw_payload
  match check_payload_exists payload_hash db with
  | some pid => (db, .ok ⟨.duplicate, pid, 0, payload.metrics.length⟩)
  | none =>
    let a := upsertPayload payload_hash nid now db
    match insert_metric_batch payload.metrics a.2 a.1 (nid + 1) with
    | .error e => (db, .error e)
    | .ok q =>
      let processed := q.2.2.1
      let skipped := q.2.2.2
      let status := if skipped == 0 then IngestStatus.success else IngestStatus.mixed
      (q.1, .ok ⟨status, a.2, processed, skipped⟩)

/-- All conflict policies the engine issues, per entity type: the
specialized handlers of `conflict_handlers`, the generic quantity write
(insert_logic.py lines 277-284: key (metric_id, date, source), update
{qty, id}), and the register-once DO NOTHING writes — the metric row
insert (lines 204-207) and the workout value/point/route-point inserts
(lines 484-485, 539-542, 573-575). `none` is DO NOTHING, `some fields`
is DO UPDATE of exactly those fields. -/
def upsertPolicies : List (String × List String × Option (List String)) :=
  (conflict_handlers.map (fun h => (h.1, h.2.1, some h.2.2))) ++
  [("quantity_timestamp", ["metric_id", "date", "source"], some ["qty", "id"]),
   ("health_metric", ["payload_id", "name", "data_hash"], none),
   ("workout_value", ["workout_id", "name"], none),
   ("workout_point", ["workout_id", "stream", "date"], none),
   ("workout_route_point", ["workout_id", "timestamp"], none)]

/-! ## Concrete fixtures -/

/-- Fault model with no storage faults. -/
def envBenign : FaultModel := ⟨false, false, []⟩

/-- Fault model in which the final commit raises. -/
def envCommitFault : FaultModel := ⟨false, true, []⟩

/-- Fault model in which the data writes of the metric named "steps"
raise a storage error scoped to that metric. -/
def envStepsFault : FaultModel := ⟨false, false, [("steps" : String)]⟩

/-- An empty store. -/
def emptyDB : DB := ⟨[], [], []⟩

/-- A generic data entry. -/
def sampleEntry1 : Row := [("date", .str "2024-01-01T00:00:00Z"), ("qty", .num 1)]

/-- A generic data entry with a different quantity. -/
def sampleEntry2 : Row := [("date", .str "2024-01-01T00:00:00Z"), .mk ("qty") (.num 2)]

/-- A generic metric. -/
def metricSteps1 : Metric := ⟨"steps", "count", [sampleEntry1]⟩

/-- The same metric name with different data. -/
def metricSteps2 : Metric := ⟨"steps", "count", [sampleEntry2]⟩

/-- The same metric name with an empty data list (so its data hash
differs from `metricSteps2`). -/
def metricSteps0 : Metric := ⟨"steps", "count", []⟩

/-- A one-metric payload. -/
def samplePayload : Payload := ⟨[metricSteps1]⟩

/-- A one-metric payload whose metric carries no data entries. -/
def payloadSteps0 : Payload := ⟨[metricSteps0]⟩

/-- A heart-rate metric group with no data entries. -/
def metricHr : Metric := ⟨"hr", "bpm", []⟩

/-- A calories metric group with no data entries. -/
def metricCal : Metric := ⟨"cal", "kcal", []⟩

/-- A three-metric payload whose middle metric is "steps". -/
def payloadMixed : Payload := ⟨[metricHr, metricSteps0, metricCal]⟩

/-- The raw dictionary of `samplePayload`. -/
def sampleRaw : Json :=
  .obj [("metrics", .arr [.obj [("name", .str "steps"), ("units", .str "count")]])]

/-- The store right after a fresh payload admission inserted the payload
row (insert_logic.py lines 98-110 taking the no-conflict branch). -/
def admitState (raw : Json) (now : Nat) (nid : Uuid) (db : DB) : DB :=
  { db with payloads := db.payloads ++ [⟨nid, generate_payload_hash raw, now⟩] }

/-- An existing blood-pressure row. -/
def bpOld : Row :=
  [("metric_id", .num 1), ("date", .str "2024-01-01"), ("systolic", .num 120),
   ("diastolic", .num 80)]

/-- An incoming blood-pressure record colliding with `bpOld` on
(metric_id, date). -/
def bpNew : Row :=
  [("metric_id", .num 1), ("date", .str "2024-01-01"), ("systolic", .num 130),
   ("diastolic", .num 85)]

/-! # Theorems -/

/-- The chunk loop does not depend on the fuel once the fuel covers the
input length. -/
theorem chunkLoop_fuel_irrel {α : Type} :
    ∀ (f₁ f₂ : Nat) (l : List α) (n : Nat), n ≠ 0 →
      l.length ≤ f₁ → l.length ≤ f₂ → chunkLoop f₁ l n = chunkLoop f₂ l n
  | 0, f₂, l, n, _, h₁, _ => by
    have hl : l = [] := by
      cases l
      · rfl
      · simp at h₁
    subst hl
    cases f₂ <;> rfl
  | f₁ + 1, 0, l, n, _, _, h₂ => by
    have hl : l = [] := by
      cases l
      · rfl
      · simp at h₂
    subst hl
    rfl
  | f₁ + 1, f₂ + 1, [], n, _, _, _ => rfl
  | f₁ + 1, f₂ + 1, x :: xs, n, hn, h₁, h₂ => by
    simp only [chunkLoop, if_neg hn]
    rw [chunkLoop_fuel_irrel f₁ f₂ ((x :: xs).drop n) n hn
      (by simp only [List.length_drop, List.length_cons]; simp at h₁; omega)
      (by simp only [List.length_drop, List.length_cons]; simp at h₂; omega)]

/-- One unfolding step of `chunked_iterable` on a nonempty list with a
nonzero size. -/
theorem chunked_iterable_cons {α : Type} (x : α) (xs : List α) (n : Nat) (hn : n ≠ 0) :
    chunked_iterable (x :: xs) n =
      (x :: xs).take n :: chunked_iterable ((x :: xs).drop n) n := by
  unfold chunked_iterable
  simp only [List.length_cons, chunkLoop, if_neg hn]
  rw [chunkLoop_fuel_irrel xs.length ((x :: xs).drop n).length ((x :: xs).drop n) n hn
    (by simp only [List.length_drop, List.length_cons]; omega) le_rfl]

/-- The chunker emits nothing exactly on an empty input (size nonzero). -/
theorem chunked_iterable_eq_nil_iff {α : Type} (l : List α) (n : Nat) (hn : n ≠ 0) :
    chunked_iterable l n = [] ↔ l = [] := by
  cases l with
  | nil => simp [chunked_iterable, chunkLoop]
  | cons x xs => rw [chunked_iterable_cons x xs n hn]; simp

/-- Concatenating the chunks restores the input exactly. -/
theorem chunked_iterable_join {α : Type} (l : List α) (n : Nat) (hn : n ≠ 0) :
    (chunked_iterable l n).flatten = l := by
  cases l with
  | nil => rfl
  | cons x xs =>
    rw [chunked_iterable_cons x xs n hn]
    rw [List.flatten_cons, chunked_iterable_join ((x :: xs).drop n) n hn]
    exact List.take_append_drop n (x :: xs)
termination_by l.length
decreasing_by simp only [List.length_drop, List.length_cons]; omega

/-- Every emitted chunk is nonempty and no longer than the chunk size. -/
theorem chunked_iterable_mem {α : Type} (l : List α) (n : Nat) (hn : n ≠ 0) :
    ∀ c ∈ chunked_iterable l n, c ≠ [] ∧ c.length ≤ n := by
  cases l with
  | nil => intro c hc; exact absurd hc (by simp [chunked_iterable, chunkLoop])
  | cons x xs =>
    rw [chunked_iterable_cons x xs n hn]
    intro c hc
    rcases List.mem_cons.mp hc with h | h
    · subst h
      refine ⟨?_, by simp only [List.length_take]; exact Nat.min_le_left n _⟩
      have : ((x :: xs).take n).length ≠ 0 := by
        simp only [List.length_take, List.length_cons]
        omega
      exact fun hne => this (by rw [hne]; rfl)
    · exact chunked_iterable_mem ((x :: xs).drop n) n hn c h
termination_by l.length
decreasing_by simp only [List.length_drop, List.length_cons]; omega

/-- Every chunk except possibly the last has exactly the chunk size. -/
theorem chunked_iterable_dropLast {α : Type} (l : List α) (n : Nat) (hn : n ≠ 0) :
    ∀ c ∈ (chunked_iterable l n).dropLast, c.length = n := by
  cases l with
  | nil => intro c hc; exact absurd hc (by simp [chunked_iterable, chunkLoop])
  | cons x xs =>
    rw [chunked_iterable_cons x xs n hn]
    by_cases hd : (x :: xs).drop n = []
    · rw [hd]
      simp [chunked_iterable, chunkLoop]
    · have hrec : chunked_iterable ((x :: xs).drop n) n ≠ [] := by
        intro h0
        exact hd ((chunked_iterable_eq_nil_iff _ n hn).mp h0)
      intro c hc
      rcases hr : chunked_iterable ((x :: xs).drop n) n with _ | ⟨y, ys⟩
      · exact absurd hr hrec
      · rw [hr] at hc
        rw [List.dropLast_cons₂] at hc
        rcases List.mem_cons.mp hc with h | h
        · subst h
          have hlen : n < (x :: xs).length := by
            by_contra hle
            exact hd (List.drop_eq_nil_of_le (by omega))
          simp only [List.length_take]
          omega
        · have := chunked_iterable_dropLast ((x :: xs).drop n) n hn
          rw [hr] at this
          exact this c h
termination_by l.length
decreasing_by simp only [List.length_drop, List.length_cons]; omega

/-- C5: for every record list, the chunking applied before writing
preserves input order, never emits an empty chunk, only the last chunk
may be shorter than the chunk size, and the concatenation of all emitted
chunks equals the input list exactly, for every chunk size the code
computes — and every chunk size the code computes (the sizes of
`entityChunkSpecs`) is at least 1, so those properties apply to each of
them. -/
theorem c5_chunking_exact :
    (∀ c ∈ entityChunkSpecs, 1 ≤ c.chunkSize) ∧
    ∀ (l : List Row) (n : Nat), 1 ≤ n →
      (chunked_iterable l n).flatten = l ∧
      (∀ c ∈ chunked_iterable l n, c ≠ [] ∧ c.length ≤ n) ∧
      (∀ c ∈ (chunked_iterable l n).dropLast, c.length = n) := by
  refine ⟨by decide, ?_⟩
  intro l n hn
  have hn' : n ≠ 0 := by omega
  exact ⟨chunked_iterable_join l n hn', chunked_iterable_mem l n hn',
    chunked_iterable_dropLast l n hn'⟩

/-- Witness for C5 at a concrete record list and the quantity path's
computed chunk size restricted to a small concrete size. -/
theorem c5_chunking_exact_witness :
    (chunked_iterable [sampleEntry1, sampleEntry2, sampleEntry1] 2).flatten =
      [sampleEntry1, sampleEntry2, sampleEntry1] :=
  (c5_chunking_exact.2 [sampleEntry1, sampleEntry2, sampleEntry1] 2 (by decide)).1

/-- C4: for every entity type whose records carry `f` fields, the chunk
size used for its batched writes equals `max(1, floor(M / f))` and hence
`chunk_size × f ≤ M`, where `M = max_params = 200` is the code's
margin-adjusted parameter budget (the spec's `safety_margin ×
param_ceiling` appears in the code as this single hard-coded budget,
passed to every batched write; `batch_size = 500` never binds since
`200 / f ≤ 200 < 500`). -/
theorem c4_chunk_size_formula :
    ∀ c ∈ entityChunkSpecs,
      c.chunkSize = max 1 (200 / c.fieldsPerRecord) ∧
      c.chunkSize * c.fieldsPerRecord ≤ 200 := by decide

/-- Witness for C4 at the generic quantity entity type. -/
theorem c4_chunk_size_formula_witness :
    ChunkSpec.chunkSize ⟨"quantity_timestamp", 5, .quantityLike⟩ = max 1 (200 / 5) ∧
    ChunkSpec.chunkSize ⟨"quantity_timestamp", 5, .quantityLike⟩ * 5 ≤ 200 :=
  c4_chunk_size_formula ⟨"quantity_timestamp", 5, .quantityLike⟩ (by decide)

/-- Reading a column of a row with one binding prepended. -/
theorem rowGet_cons (kv : String × Json) (l : Row) (f : String) :
    rowGet (kv :: l) f = if kv.1 == f then some kv.2 else rowGet l f := by
  unfold rowGet
  rw [List.find?_cons]
  cases h : (kv.1 == f) <;> simp [h]

/-- Unfolding of `applyUpdate` on a row with one binding prepended. -/
theorem applyUpdate_cons (us : List String) (kv : String × Json) (rest : Row) (r : Row) :
    applyUpdate us (kv :: rest) r =
      (if us.contains kv.1 then (kv.1, (rowGet r kv.1).getD Json.null) else kv) ::
        applyUpdate us rest r := rfl

/-- DO UPDATE leaves every column outside the update set unchanged. -/
theorem rowGet_applyUpdate_not_mem (us : List String) (old r : Row) (f : String)
    (hf : f ∉ us) : rowGet (applyUpdate us old r) f = rowGet old f := by
  induction old with
  | nil => rfl
  | cons kv rest ih =>
    rw [applyUpdate_cons]
    by_cases hc : kv.1 = f
    · have hm : us.contains kv.1 = false := by
        cases hcont : us.contains kv.1
        · rfl
        · exact absurd (hc ▸ List.elem_iff.mp hcont) hf
      rw [hm]
      rw [rowGet_cons, rowGet_cons]
      simp [hc]
    · have hbeq : (kv.1 == f) = false := beq_eq_false_iff_ne.mpr hc
      cases hcont : us.contains kv.1 <;>
        simp [hcont, rowGet_cons, hbeq, ih]

/-- DO UPDATE sets every column of the update set that the row carries to
the incoming record's value (the insert default `NULL` when the incoming
record omits the column). -/
theorem rowGet_applyUpdate_mem (us : List String) (old r : Row) (f : String)
    (hf : f ∈ us) (v : Json) (hv : rowGet old f = some v) :
    rowGet (applyUpdate us old r) f = some ((rowGet r f).getD Json.null) := by
  induction old with
  | nil => exact absurd hv (by simp [rowGet])
  | cons kv rest ih =>
    rw [applyUpdate_cons]
    by_cases hc : kv.1 = f
    · have hm : us.contains kv.1 = true := by
        exact List.elem_iff.mpr (hc ▸ hf)
      rw [hm]
      rw [rowGet_cons]
      simp [if_pos (beq_iff_eq.mpr hc), hc]
    · have hbeq : (kv.1 == f) = false := beq_eq_false_iff_ne.mpr hc
      rw [rowGet_cons, hbeq] at hv
      cases hcont : us.contains kv.1 <;>
        simp [hcont, rowGet_cons, hbeq, ih hv]


/-- Position-preserving shape of one conflict-aware row write: with a
single conflicting row in the table, the write rewrites exactly that row
in place (per the policy) and touches no other row; in particular no row
is appended. -/
theorem upsertRecord_split (kf : List String) (upd : Option (List String)) :
    ∀ (pre : List Row) (post : List Row) (old r : Row),
      (∀ o ∈ pre, keyMatches kf o r = false) → keyMatches kf old r = true →
      upsertRecord kf upd (pre ++ old :: post) r =
        pre ++ (match upd with
                | none => old
                | some us => applyUpdate us old r) :: post := by
  intro pre
  induction pre with
  | nil =>
    intro post old r _ hold
    simp [upsertRecord, hold]
  | cons p ps ih =>
    intro post old r hpre hold
    have hp : keyMatches kf p r = false := hpre p (by simp)
    simp only [List.cons_append, upsertRecord, hp, Bool.false_eq_true, if_false,
      List.append_eq]
    rw [ih post old r (fun o ho => hpre o (by simp [ho])) hold]

/-- C8: for every upserted chunk of every entity type (generic or
specialized), a collision on the type's natural key overwrites exactly
that type's updatable fields — each carried column in the update set
takes the incoming record's value, every column outside the set keeps its
old value — and the rows before and after the conflicting one are
untouched (the conflicting row is rewritten in place, no row is added);
when the updatable-field set is empty (a DO NOTHING policy), the
conflicting row and hence the whole table are left entirely untouched. -/
theorem c8_upsert_frame_effect :
    ∀ p ∈ upsertPolicies, ∀ (pre post : List Row) (old r : Row),
      (∀ o ∈ pre, keyMatches p.2.1 o r = false) →
      keyMatches p.2.1 old r = true →
      (p.2.2 = none →
        upsertRecord p.2.1 p.2.2 (pre ++ old :: post) r = pre ++ old :: post) ∧
      (∀ us, p.2.2 = some us →
        upsertRecord p.2.1 p.2.2 (pre ++ old :: post) r =
          pre ++ applyUpdate us old r :: post ∧
        (∀ f v, f ∈ us → rowGet old f = some v →
          rowGet (applyUpdate us old r) f = some ((rowGet r f).getD Json.null)) ∧
        (∀ f, f ∉ us → rowGet (applyUpdate us old r) f = rowGet old f)) := by
  intro p _ pre post old r hpre hold
  constructor
  · intro hnone
    have h := upsertRecord_split p.2.1 p.2.2 pre post old r hpre hold
    rw [hnone] at h ⊢
    simpa using h
  · intro us hsome
    refine ⟨?_, fun f v hf hv => rowGet_applyUpdate_mem us old r f hf v hv,
      fun f hf => rowGet_applyUpdate_not_mem us old r f hf⟩
    have h := upsertRecord_split p.2.1 p.2.2 pre post old r hpre hold
    rw [hsome] at h ⊢
    simpa using h

/-- Witness for C8: the blood-pressure policy applied to a concrete
colliding row. -/
theorem c8_upsert_frame_effect_witness :
    upsertRecord ["metric_id", "date"] (some ["systolic", "diastolic"]) [bpOld] bpNew =
      [applyUpdate ["systolic", "diastolic"] bpOld bpNew] :=
  ((c8_upsert_frame_effect
      ("blood_pressure", ["metric_id", "date"], some ["systolic", "diastolic"])
      (by decide) [] [] bpOld bpNew (by simp) (by decide)).2
    ["systolic", "diastolic"] rfl).1

/-- Canonicalizing entries is a map over the entries. -/
theorem canonEntries_eq_map (l : List (String × Json)) :
    canonEntries l = l.map (fun e => (e.1, canonicalize e.2)) := by
  induction l with
  | nil => rw [canonEntries]; rfl
  | cons e l ih => rw [canonEntries, ih]; rfl

/-- Canonicalizing entries keeps the keys. -/
theorem keys_canonEntries (l : List (String × Json)) :
    (canonEntries l).map Prod.fst = l.map Prod.fst := by
  rw [canonEntries_eq_map, List.map_map]
  rfl

/-- A key-sorted entry list with duplicate-free keys is strictly
key-sorted. -/
theorem sorted_entryLT_of_sorted_entryLE (l : List (String × Json))
    (hs : List.Sorted entryLE l) (hnd : (l.map Prod.fst).Nodup) :
    List.Sorted entryLT l := by
  have hne : l.Pairwise (fun a b : String × Json => a.1 ≠ b.1) :=
    (List.pairwise_map).mp hnd
  exact (List.Pairwise.imp₂ (fun a b hle hab => lt_of_le_of_ne hle hab) hs hne)

/-- Sorting by key is invariant under permutation of entry lists with
duplicate-free keys: the heart of `sort_keys=True` canonicity. -/
theorem sortEntries_eq_of_perm (l₁ l₂ : List (String × Json)) (hp : l₁.Perm l₂)
    (hnd : (l₁.map Prod.fst).Nodup) : sortEntries l₁ = sortEntries l₂ := by
  have hperm : (sortEntries l₁).Perm (sortEntries l₂) :=
    (List.perm_insertionSort entryLE l₁).trans
      (hp.trans (List.perm_insertionSort entryLE l₂).symm)
  have hnd₁ : ((sortEntries l₁).map Prod.fst).Nodup :=
    ((List.perm_insertionSort entryLE l₁).map Prod.fst).symm.nodup hnd
  have hnd₂ : ((sortEntries l₂).map Prod.fst).Nodup := (hperm.map Prod.fst).nodup hnd₁
  exact List.eq_of_perm_of_sorted hperm
    (sorted_entryLT_of_sorted_entryLE _ (List.sorted_insertionSort entryLE l₁) hnd₁)
    (sorted_entryLT_of_sorted_entryLE _ (List.sorted_insertionSort entryLE l₂) hnd₂)

/-- Values that are semantically identical up to key order have the same
canonical form, hence the same digest. -/
theorem canonicalize_eq_of_jeq {a b : Json} (h : JEq a b) :
    canonicalize a = canonicalize b := by
  induction h with
  | refl j => rfl
  | symm _ ih => exact ih.symm
  | trans _ _ ih₁ ih₂ => exact ih₁.trans ih₂
  | arrHead l _ ih =>
    simp only [canonicalize, canonList]
    rw [ih]
  | arrTail a _ ih =>
    simp only [canonicalize, canonList] at *
    rw [Json.arr.inj ih]
  | objHead k l _ ih =>
    simp only [canonicalize, canonEntries]
    rw [ih]
  | objTail e _ ih =>
    simp only [canonicalize, canonEntries] at *
    have h2 := Json.obj.inj ih
    unfold sortEntries at h2 ⊢
    rw [List.insertionSort, List.insertionSort, h2]
  | @objPerm l₁ l₂ hperm hnd =>
    simp only [canonicalize]
    have hp2 : (canonEntries l₁).Perm (canonEntries l₂) := by
      rw [canonEntries_eq_map, canonEntries_eq_map]
      exact hperm.map _
    have hnd2 : ((canonEntries l₁).map Prod.fst).Nodup := by
      rw [keys_canonEntries]
      exact hnd
    rw [sortEntries_eq_of_perm _ _ hp2 hnd2]

mutual

/-- Every well-formed value is key-order-equivalent to its canonical
form. -/
theorem jeq_canon : ∀ (j : Json), wfJson j = true → JEq j (canonicalize j)
  | .str s, _ => by simp only [canonicalize]; exact .refl _
  | .num n, _ => by simp only [canonicalize]; exact .refl _
  | .bool b, _ => by simp only [canonicalize]; exact .refl _
  | .null, _ => by simp only [canonicalize]; exact .refl _
  | .arr l, h => by
    simp only [canonicalize]
    exact jeq_canon_arr l (by simpa [wfJson] using h)
  | .obj l, h => by
    simp only [canonicalize]
    rw [wfJson, Bool.and_eq_true, decide_eq_true_eq] at h
    refine JEq.trans (jeq_canon_entries l h.2) (JEq.objPerm ?_ ?_)
    · exact (List.perm_insertionSort entryLE (canonEntries l)).symm
    · rw [keys_canonEntries]; exact h.1

/-- Elementwise version of `jeq_canon` for arrays. -/
theorem jeq_canon_arr : ∀ (l : List Json), wfList l = true → JEq (.arr l) (.arr (canonList l))
  | [], _ => by simp only [canonList]; exact .refl _
  | j :: l, h => by
    simp only [canonList]
    rw [wfList, Bool.and_eq_true] at h
    exact JEq.trans (JEq.arrHead l (jeq_canon j h.1)) (JEq.arrTail _ (jeq_canon_arr l h.2))

/-- Elementwise version of `jeq_canon` for objects, before sorting. -/
theorem jeq_canon_entries :
    ∀ (l : List (String × Json)), wfEntries l = true → JEq (.obj l) (.obj (canonEntries l))
  | [], _ => by simp only [canonEntries]; exact .refl _
  | (k, v) :: l, h => by
    simp only [canonEntries]
    rw [wfEntries, Bool.and_eq_true] at h
    exact JEq.trans (JEq.objHead k l (jeq_canon v h.1))
      (JEq.objTail _ (jeq_canon_entries l h.2))

end

/-- C9: `generate_payload_hash` is a deterministic function of
canonicalized content: for well-formed payload dictionaries (duplicate-
free keys, as Python dicts guarantee), two values that are semantically
identical up to mapping key order have the same digest, and any
difference in content (anything beyond key reordering, including an added
or removed field) yields a different digest. Float-formatting variants
denote the same parsed value, hence the same `Json` input, and are
covered by reflexivity. Digests are modelled collision-free (ideal
SHA-256 of the canonical dump). -/
theorem c9_payload_hash_content :
    ∀ a b : Json, wfJson a = true → wfJson b = true →
      (JEq a b ↔ generate_payload_hash a = generate_payload_hash b) := by
  intro a b ha hb
  constructor
  · intro h
    exact canonicalize_eq_of_jeq h
  · intro h
    unfold generate_payload_hash at h
    exact ((jeq_canon a ha).trans (h ▸ JEq.refl _)).trans (jeq_canon b hb).symm

/-- Witness for C9: reordering the two keys of a concrete payload
dictionary leaves the digest unchanged. -/
theorem c9_payload_hash_content_witness :
    generate_payload_hash (.obj [("data", .num 1), ("metrics", .num 2)]) =
      generate_payload_hash (.obj [("metrics", .num 2), ("data", .num 1)]) :=
  (c9_payload_hash_content (.obj [("data", .num 1), ("metrics", .num 2)])
      (.obj [("metrics", .num 2), ("data", .num 1)]) (by decide) (by decide)).mp
    (JEq.objPerm (List.Perm.swap _ _ _) (by decide))

/-- A list of booleans splits its length into its `true` and `false`
counts. -/
theorem count_true_add_count_false (l : List Bool) :
    l.count true + l.count false = l.length := by
  induction l with
  | nil => rfl
  | cons b bs ih => cases b <;> simp [List.count_cons] <;> omega

/-- The per-metric loop yields one outcome per metric. -/
theorem processMetrics_length (env : FaultModel) (ms : List Metric) (pid : Uuid)
    (t : Txn) (nid : Uuid) : (processMetrics env ms pid t nid).2.2.length = ms.length := by
  induction ms generalizing t nid with
  | nil => rfl
  | cons m rest ih => simp [processMetrics, ih]

/-- `insertHealthData` unfolded on a fresh payload with a working
payload insert and commit: the payload row is admitted and the
per-metric loop runs; if one of the loop's statements failed, the
transaction is aborted and the commit re-raises with the state rolled
back, otherwise the loop's outcomes determine the committed result. -/
theorem insertHealthData_fresh (env : FaultModel) (p : Payload) (raw : Json)
    (now : Nat) (nid : Uuid) (db : DB)
    (hfind : db.payloads.find? (fun r => r.payloadHash == generate_payload_hash raw) = none)
    (h1 : env.payloadInsertFails = false) (h2 : env.commitFails = false) :
    insertHealthData env p raw now nid db =
      (if (processMetrics env p.metrics nid ⟨admitState raw now nid db, false⟩
            (nid + 1)).1.aborted
       then (db, .error .abortedTxnCommitFault)
       else ((processMetrics env p.metrics nid ⟨admitState raw now nid db, false⟩
                (nid + 1)).1.db,
        .ok ⟨(if (processMetrics env p.metrics nid ⟨admitState raw now nid db, false⟩
                   (nid + 1)).2.2.count false == 0
              then IngestStatus.success else IngestStatus.mixed),
             nid,
             (processMetrics env p.metrics nid ⟨admitState raw now nid db, false⟩
               (nid + 1)).2.2.count true,
             (processMetrics env p.metrics nid ⟨admitState raw now nid db, false⟩
               (nid + 1)).2.2.count false⟩)) := by
  have hch : check_payload_exists (generate_payload_hash raw) db = none := by
    rw [check_payload_exists, hfind]
    rfl
  simp only [insertHealthData, hch, h1, h2, upsertPayload, hfind, admitState,
    bne_self_eq_false, Bool.false_eq_true, if_false, Bool.false_eq_true]

/-- `insertHealthData` either returns a result or leaves the committed
state untouched. -/
theorem insertHealthData_ok_or_rollback (env : FaultModel) (p : Payload) (raw : Json)
    (now : Nat) (nid : Uuid) (db : DB) :
    (∃ r, (insertHealthData env p raw now nid db).2 = .ok r) ∨
      (insertHealthData env p raw now nid db).1 = db := by
  rcases hch : check_payload_exists (generate_payload_hash raw) db with _ | pid
  · simp only [insertHealthData, hch]
    split
    · right; rfl
    · split
      · left; exact ⟨_, rfl⟩
      · split
        · right; rfl
        · split
          · right; rfl
          · left; exact ⟨_, rfl⟩
  · simp only [insertHealthData, hch]
    left; exact ⟨_, rfl⟩

/-- With a working payload insert and commit, `insertHealthData` returns
a result whose processed and skipped counts partition the payload's
metrics, provided none of the per-metric loop's statements failed (the
transaction was not aborted); on an already-stored payload it returns
the duplicate result unconditionally. -/
theorem insertHealthData_no_abort_ok (env : FaultModel) (p : Payload) (raw : Json)
    (now : Nat) (nid : Uuid) (db : DB)
    (h1 : env.payloadInsertFails = false) (h2 : env.commitFails = false)
    (hab : (processMetrics env p.metrics nid ⟨admitState raw now nid db, false⟩
      (nid + 1)).1.aborted = false) :
    ∃ r, (insertHealthData env p raw now nid db).2 = .ok r ∧
      r.metrics_processed + r.metrics_skipped = p.metrics.length := by
  rcases hch : check_payload_exists (generate_payload_hash raw) db with _ | pid
  · have hfind : db.payloads.find?
        (fun r => r.payloadHash == generate_payload_hash raw) = none := by
      rw [check_payload_exists] at hch
      exact Option.map_eq_none.mp hch
    rw [insertHealthData_fresh env p raw now nid db hfind h1 h2, if_neg (by simp [hab])]
    refine ⟨_, rfl, ?_⟩
    rw [count_true_add_count_false, processMetrics_length]
  · refine ⟨⟨.duplicate, pid, 0, p.metrics.length⟩, ?_, by simp⟩
    simp only [insertHealthData, hch]

/-- Updating a data table leaves the payload table alone. -/
theorem setTable_payloads (db : DB) (t : String) (rows : List Row) :
    (DB.setTable db t rows).payloads = db.payloads := rfl

/-- The quantity write path never touches the payload table. -/
theorem insert_quantity_payloads (es : List Row) (mid : Uuid) (db : DB) (nid : Uuid) :
    (insert_quantity_data_idempotent es mid db nid).1.payloads = db.payloads := by
  unfold insert_quantity_data_idempotent
  split
  · rfl
  · dsimp only
    split <;> rfl

/-- The specialized write path never touches the payload table. -/
theorem insert_specialized_payloads (es : List Row) (mid : Uuid) (tb mt : String)
    (db : DB) (nid : Uuid) :
    (insert_specialized_data_idempotent es mid tb mt db nid).1.payloads = db.payloads := by
  unfold insert_specialized_data_idempotent
  split
  · rfl
  · dsimp only
    split <;> rfl

/-- The metric-data dispatch never touches the payload table. -/
theorem insertMetricData_payloads (m : Metric) (mid : Uuid) (db : DB) (nid : Uuid) :
    (insertMetricData m mid db nid).1.payloads = db.payloads := by
  unfold insertMetricData
  dsimp only
  split
  · exact insert_quantity_payloads _ _ _ _
  · exact insert_specialized_payloads _ _ _ _ _ _

/-- Metric processing never touches the payload table. -/
theorem insert_metric_idempotent_payloads (env : FaultModel) (m : Metric) (pid : Uuid)
    (t : Txn) (nid : Uuid) :
    (insert_metric_idempotent env m pid t nid).1.db.payloads = t.db.payloads := by
  unfold insert_metric_idempotent
  dsimp only
  repeat' split
  all_goals first
    | rfl
    | rw [insertMetricData_payloads]

/-- The per-metric loop never touches the payload table. -/
theorem processMetrics_payloads (env : FaultModel) (ms : List Metric) (pid : Uuid)
    (t : Txn) (nid : Uuid) :
    (processMetrics env ms pid t nid).1.db.payloads = t.db.payloads := by
  induction ms generalizing t nid with
  | nil => rfl
  | cons m rest ih =>
    simp only [processMetrics]
    rw [ih, insert_metric_idempotent_payloads]

/-- After a fresh admission of a payload, its hash is found and resolves
to the admitted id. -/
theorem check_payload_exists_after (raw : Json) (now : Nat) (nid : Uuid) (db db' : DB)
    (hfind : db.payloads.find? (fun r => r.payloadHash == generate_payload_hash raw) = none)
    (hpl : db'.payloads = (admitState raw now nid db).payloads) :
    check_payload_exists (generate_payload_hash raw) db' = some nid := by
  rw [check_payload_exists, hpl]
  unfold admitState
  simp only [List.find?_append, hfind, Option.none_or]
  simp [List.find?]

/-- Appending a metric row extends the pair test pointwise. -/
theorem pairIn_append (ms : List MetricRow) (r : MetricRow) (pid : Uuid) (name : String) :
    pairIn (ms ++ [r]) pid name =
      (pairIn ms pid name || (r.payloadId == pid && r.name == name)) := by
  simp [pairIn, List.any_append]

/-- A (payload, name, fingerprint) hit is in particular a (payload,
name) hit. -/
theorem pairIn_of_tripleIn (ms : List MetricRow) (pid : Uuid) (name : String) (h : Json)
    (ht : tripleIn ms pid name h = true) : pairIn ms pid name = true := by
  simp only [tripleIn, pairIn, List.any_eq_true, Bool.and_eq_true] at ht ⊢
  obtain ⟨r, hr, ⟨h1, h2⟩, h3⟩ := ht
  exact ⟨r, hr, h1, h2⟩

/-- The quantity write path never touches the metric table. -/
theorem insert_quantity_metrics (es : List Row) (mid : Uuid) (db : DB) (nid : Uuid) :
    (insert_quantity_data_idempotent es mid db nid).1.metrics = db.metrics := by
  unfold insert_quantity_data_idempotent
  split
  · rfl
  · dsimp only
    split <;> rfl

/-- The specialized write path never touches the metric table. -/
theorem insert_specialized_metrics (es : List Row) (mid : Uuid) (tb mt : String)
    (db : DB) (nid : Uuid) :
    (insert_specialized_data_idempotent es mid tb mt db nid).1.metrics = db.metrics := by
  unfold insert_specialized_data_idempotent
  split
  · rfl
  · dsimp only
    split <;> rfl

/-- The metric-data dispatch never touches the metric table. -/
theorem insertMetricData_metrics (m : Metric) (mid : Uuid) (db : DB) (nid : Uuid) :
    (insertMetricData m mid db nid).1.metrics = db.metrics := by
  unfold insertMetricData
  dsimp only
  split
  · exact insert_quantity_metrics _ _ _ _
  · exact insert_specialized_metrics _ _ _ _ _ _

/-- One metric's step on a live transaction whose (payload, name) pair
is still free and whose name carries no fault: no statement fails, the
transaction stays live, and the metric table is extended by exactly this
metric's row. -/
theorem insert_metric_step_live (env : FaultModel) (m : Metric) (pid : Uuid)
    (t : Txn) (nid : Uuid) (hab : t.aborted = false)
    (hpair : pairIn t.db.metrics pid m.name = false)
    (hf : m.name ∉ env.metricFails) :
    (insert_metric_idempotent env m pid t nid).1.aborted = false ∧
    (insert_metric_idempotent env m pid t nid).1.db.metrics =
      t.db.metrics ++ [⟨nid, pid, m.name, m.units, generate_metric_hash m.name m.data⟩] := by
  have ht : tripleIn t.db.metrics pid m.name (generate_metric_hash m.name m.data) = false := by
    cases htri : tripleIn t.db.metrics pid m.name (generate_metric_hash m.name m.data)
    · rfl
    · rw [pairIn_of_tripleIn _ _ _ _ htri] at hpair
      exact absurd hpair (by simp)
  cases hd : m.data.isEmpty <;>
    simp [insert_metric_idempotent, hab, ht, hpair, hf, hd, insertMetricData_metrics]

/-- The per-metric loop keeps the transaction live — none of its
statements fails — when the payload id carries no prior (payload, name)
pair, the payload's metric names are distinct, and no metric's name is
faulted. -/
theorem processMetrics_live (env : FaultModel) :
    ∀ (ms : List Metric) (pid : Uuid) (t : Txn) (nid : Uuid),
      t.aborted = false →
      (∀ m ∈ ms, m.name ∉ env.metricFails) →
      (∀ m ∈ ms, pairIn t.db.metrics pid m.name = false) →
      (ms.map (fun m => m.name)).Nodup →
      (processMetrics env ms pid t nid).1.aborted = false
  | [], _, _, _, hab, _, _, _ => hab
  | m :: rest, pid, t, nid, hab, hfault, hpair, hnodup => by
    obtain ⟨hstep_ab, hstep_m⟩ := insert_metric_step_live env m pid t nid hab
      (hpair m (List.mem_cons_self m rest)) (hfault m (List.mem_cons_self m rest))
    have hmap : (m.name :: rest.map (fun x => x.name)).Nodup := by
      simpa using hnodup
    have hnotin : m.name ∉ rest.map (fun x => x.name) := (List.nodup_cons.mp hmap).1
    simp only [processMetrics]
    refine processMetrics_live env rest pid _ _ hstep_ab
      (fun m' hm' => hfault m' (List.mem_cons_of_mem m hm')) ?_
      (List.nodup_cons.mp hmap).2
    intro m' hm'
    have hne : (m.name == m'.name) = false := by
      have hnem : m.name ≠ m'.name := by
        intro he
        exact hnotin (he ▸ List.mem_map_of_mem (fun x => x.name) hm')
      simpa using hnem
    rw [hstep_m, pairIn_append]
    simp [hpair m' (List.mem_cons_of_mem m hm'), hne]

/-- C1: submitting a payload a second time byte-identically returns a
result with status duplicate, the payload id stored for the first
submission, zero metrics processed, the payload's total metric count
skipped — and the store is completely unchanged (zero new rows in every
table), whatever fault model governs the second call. -/
theorem c1_duplicate_resubmission (env₁ env₂ : FaultModel) (p : Payload) (raw : Json)
    (now₁ now₂ : Nat) (nid₁ nid₂ : Uuid) (db : DB) (res₁ : InsertResult)
    (hfind : db.payloads.find? (fun r => r.payloadHash == generate_payload_hash raw) = none)
    (h1 : env₁.payloadInsertFails = false) (h2 : env₁.commitFails = false)
    (hok : (insertHealthData env₁ p raw now₁ nid₁ db).2 = .ok res₁) :
    insertHealthData env₂ p raw now₂ nid₂ (insertHealthData env₁ p raw now₁ nid₁ db).1 =
      ((insertHealthData env₁ p raw now₁ nid₁ db).1,
       .ok ⟨.duplicate, res₁.payload_id, 0, p.metrics.length⟩) := by
  have hrun := insertHealthData_fresh env₁ p raw now₁ nid₁ db hfind h1 h2
  -- the first run returned a result, so none of its statements failed
  have hab : (processMetrics env₁ p.metrics nid₁ ⟨admitState raw now₁ nid₁ db, false⟩
      (nid₁ + 1)).1.aborted = false := by
    by_contra habT
    have habT' : (processMetrics env₁ p.metrics nid₁ ⟨admitState raw now₁ nid₁ db, false⟩
        (nid₁ + 1)).1.aborted = true := by
      revert habT
      cases (processMetrics env₁ p.metrics nid₁ ⟨admitState raw now₁ nid₁ db, false⟩
        (nid₁ + 1)).1.aborted <;> simp
    rw [hrun, if_pos habT'] at hok
    exact absurd hok (by simp)
  have hid : res₁.payload_id = nid₁ := by
    rw [hrun, if_neg (by simp [hab])] at hok
    simp only [Except.ok.injEq] at hok
    rw [← hok]
  have hch2 : check_payload_exists (generate_payload_hash raw)
      (insertHealthData env₁ p raw now₁ nid₁ db).1 = some nid₁ := by
    refine check_payload_exists_after raw now₁ nid₁ db _ hfind ?_
    rw [hrun, if_neg (by simp [hab])]
    simp only
    rw [processMetrics_payloads]
  rw [hid]
  set D := (insertHealthData env₁ p raw now₁ nid₁ db).1 with hD
  simp only [insertHealthData, hch2]

/-- Witness for C1: a concrete payload ingested into an empty store and
resubmitted byte-identically. -/
theorem c1_duplicate_resubmission_witness :
    insertHealthData envBenign payloadSteps0 sampleRaw 7 200
        (insertHealthData envBenign payloadSteps0 sampleRaw 0 100 emptyDB).1 =
      ((insertHealthData envBenign payloadSteps0 sampleRaw 0 100 emptyDB).1,
       .ok ⟨.duplicate, 100, 0, 1⟩) := by
  have hok : (insertHealthData envBenign payloadSteps0 sampleRaw 0 100 emptyDB).2 =
      .ok ⟨.success, 100, 1, 0⟩ := by
    simp +decide [insertHealthData, check_payload_exists, upsertPayload, processMetrics,
      insert_metric_idempotent, generate_metric_hash, generate_payload_hash, canonicalize,
      canonEntries, canonList, sortEntries, List.insertionSort, List.orderedInsert,
      payloadSteps0, metricSteps0, sampleRaw, emptyDB, envBenign, entryLE]
  exact c1_duplicate_resubmission envBenign envBenign payloadSteps0 sampleRaw 0 7 100 200
    emptyDB ⟨.success, 100, 1, 0⟩ rfl rfl rfl hok

/-- C7 (amended): one payload is one atomic unit of work.
(1) Whenever the run re-raises a storage fault — including a commit
attempted after a failed per-metric statement aborted the payload's
single no-savepoint transaction — the committed state equals the input
state: no partial rows of the payload remain (rollback at
insert_logic.py lines 155-158).
(2) A per-metric duplicate skip issues no failing statement: a dedup
SELECT hit on a live transaction is absorbed as a skipped count and
leaves the transaction state exactly as it was.
(3) With a working payload insert and commit, if none of the metric
loop's statements failed, the run commits the transaction's working
state and returns a result whose processed and skipped counts partition
the payload's metrics.
(4) If a per-metric statement did fail (the loop's transaction ends
aborted), a fresh payload's run re-raises at commit and commits nothing:
per-metric statement failures destroy the unit of work instead of being
absorbed — refuting the frozen claim's last clause.
(5) A commit fault on a fresh payload is re-raised with the state rolled
back. -/
theorem c7_payload_atomicity (env : FaultModel) (p : Payload) (raw : Json)
    (now : Nat) (nid : Uuid) (db : DB) :
    (∀ e, (insertHealthData env p raw now nid db).2 = .error e →
      (insertHealthData env p raw now nid db).1 = db) ∧
    (∀ (m : Metric) (t : Txn) (nid₀ : Uuid), t.aborted = false →
      tripleIn t.db.metrics nid m.name (generate_metric_hash m.name m.data) = true →
      insert_metric_idempotent env m nid t nid₀ = (t, nid₀, false)) ∧
    (env.payloadInsertFails = false → env.commitFails = false →
      (processMetrics env p.metrics nid ⟨admitState raw now nid db, false⟩
        (nid + 1)).1.aborted = false →
      ∃ r, (insertHealthData env p raw now nid db).2 = .ok r ∧
        r.metrics_processed + r.metrics_skipped = p.metrics.length) ∧
    (check_payload_exists (generate_payload_hash raw) db = none →
      env.payloadInsertFails = false → env.commitFails = false →
      (processMetrics env p.metrics nid ⟨admitState raw now nid db, false⟩
        (nid + 1)).1.aborted = true →
      (insertHealthData env p raw now nid db).2 = .error .abortedTxnCommitFault ∧
        (insertHealthData env p raw now nid db).1 = db) ∧
    (check_payload_exists (generate_payload_hash raw) db = none →
      env.commitFails = true →
      ∃ e, (insertHealthData env p raw now nid db).2 = .error e ∧
        (insertHealthData env p raw now nid db).1 = db) := by
  refine ⟨?_, ?_, fun h1 h2 hab =>
    insertHealthData_no_abort_ok env p raw now nid db h1 h2 hab, ?_, ?_⟩
  · intro e he
    rcases insertHealthData_ok_or_rollback env p raw now nid db with ⟨r, hr⟩ | h
    · rw [he] at hr
      exact absurd hr (by simp)
    · exact h
  · intro m t nid₀ hab ht
    simp [insert_metric_idempotent, hab, ht]
  · intro hch h1 h2 hab
    have hfind : db.payloads.find?
        (fun r => r.payloadHash == generate_payload_hash raw) = none := by
      rw [check_payload_exists] at hch
      exact Option.map_eq_none.mp hch
    rw [insertHealthData_fresh env p raw now nid db hfind h1 h2, if_pos hab]
    exact ⟨rfl, rfl⟩
  · intro hch hcf
    have hfind : db.payloads.find?
        (fun r => r.payloadHash == generate_payload_hash raw) = none := by
      rw [check_payload_exists] at hch
      exact Option.map_eq_none.mp hch
    simp only [insertHealthData, hch, upsertPayload, hfind, bne_self_eq_false,
      Bool.false_eq_true, if_false, hcf, if_true]
    split
    · exact ⟨.payloadInsertFault, rfl, rfl⟩
    · exact ⟨.commitFault, rfl, rfl⟩

/-- Witness for C7 at a concrete input: a storage fault scoped to the
single metric of a fresh one-metric payload aborts the transaction; the
run re-raises at commit and the store is left exactly as it was. -/
theorem c7_payload_atomicity_witness :
    (insertHealthData envStepsFault payloadSteps0 sampleRaw 0 100 emptyDB).2 =
        .error .abortedTxnCommitFault ∧
      (insertHealthData envStepsFault payloadSteps0 sampleRaw 0 100 emptyDB).1 = emptyDB :=
  (c7_payload_atomicity envStepsFault payloadSteps0 sampleRaw 0 100 emptyDB).2.2.2.1
    rfl rfl rfl
    (by simp +decide [processMetrics, insert_metric_idempotent, admitState, emptyDB,
      payloadSteps0, metricSteps0, envStepsFault, sampleRaw, generate_payload_hash,
      generate_metric_hash, canonicalize, canonEntries, canonList, sortEntries,
      List.insertionSort, List.orderedInsert, entryLE, tripleIn, pairIn])

/-- Counterexample to C7 as frozen, which says per-metric failures do
not trigger the rollback and are absorbed as skipped counts: with a
working payload insert and commit, a storage error scoped to the one
metric "steps" — caught at insert_logic.py line 230 and counted as a
skip — still leaves the payload's single no-savepoint transaction
aborted, so the commit raises, the run re-raises the storage fault, and
the committed state is the untouched input store: the per-metric failure
destroyed the whole unit of work. -/
theorem c7_per_metric_fault_destroys_unit :
    envStepsFault.payloadInsertFails = false ∧ envStepsFault.commitFails = false ∧
    (insertHealthData envStepsFault payloadSteps0 sampleRaw 3 7 emptyDB).2 =
      .error .abortedTxnCommitFault ∧
    (insertHealthData envStepsFault payloadSteps0 sampleRaw 3 7 emptyDB).1 = emptyDB := by
  refine ⟨rfl, rfl, ?_, ?_⟩ <;>
    simp +decide [insertHealthData, check_payload_exists, upsertPayload, processMetrics,
      insert_metric_idempotent, generate_metric_hash, generate_payload_hash, canonicalize,
      canonEntries, canonList, sortEntries, List.insertionSort, List.orderedInsert,
      payloadSteps0, metricSteps0, sampleRaw, emptyDB, envStepsFault, entryLE,
      tripleIn, pairIn]

/-- C10: the optimized batch path is not equivalent to the primary path.
For every admitted payload (hash not yet stored) with at least one
metric, `insert_health_data_optimized` cannot return a result — its
`insert_metric_batch` evaluates the undefined name `records`
(batch_operations.py line 117; `batch_size` and `chunked_iterable` are
likewise undefined there, and the module-level import of METRIC_CONFIGS
and TimestampedModel from app.api.models would already fail) — while
`insert_health_data` on the same inputs returns a result (stated for
payloads with distinct metric names and a fresh payload id, so that no
statement of the primary run fails and its transaction commits); so the
two do not compute the same result record. -/
theorem c10_optimized_not_equivalent (p : Payload) (raw : Json) (now : Nat)
    (nid : Uuid) (db : DB)
    (hch : check_payload_exists (generate_payload_hash raw) db = none)
    (hne : p.metrics ≠ [])
    (hnames : (p.metrics.map (fun m => m.name)).Nodup)
    (hfresh : ∀ r ∈ db.metrics, r.payloadId ≠ nid) :
    (insert_health_data_optimized p raw now nid db).2 = .error (.nameError ("records")) ∧
    ∃ r, (insertHealthData envBenign p raw now nid db).2 = .ok r := by
  constructor
  · have hmne : p.metrics.isEmpty = false := by
      cases hm : p.metrics
      · exact absurd hm hne
      · rfl
    simp only [insert_health_data_optimized, hch, insert_metric_batch, hmne,
      Bool.false_eq_true, if_false]
  · have hab : (processMetrics envBenign p.metrics nid
        ⟨admitState raw now nid db, false⟩ (nid + 1)).1.aborted = false := by
      refine processMetrics_live envBenign p.metrics nid _ (nid + 1) rfl ?_ ?_ hnames
      · intro m _
        simp [envBenign]
      · intro m _
        simp only [pairIn, admitState]
        rw [List.any_eq_false]
        intro r hr
        simp [hfresh r hr]
    obtain ⟨r, hr, _⟩ := insertHealthData_no_abort_ok envBenign p raw now nid db rfl rfl hab
    exact ⟨r, hr⟩

/-- Witness for C10 at a concrete one-metric payload on an empty store. -/
theorem c10_optimized_not_equivalent_witness :
    (insert_health_data_optimized samplePayload sampleRaw 0 100 emptyDB).2 =
      .error (.nameError ("records")) :=
  (c10_optimized_not_equivalent samplePayload sampleRaw 0 100 emptyDB rfl
    (by simp [samplePayload]) (by simp [samplePayload, metricSteps1])
    (by intro r hr; exact absurd hr (List.not_mem_nil r))).1

/-- C3 evaluated at its failing input (code_bug evidence): under one
payload, the metric named "steps" is first inserted with one data
fingerprint (processed); resubmitting the identical metric is skipped by
the dedup SELECT with the transaction left exactly as it was — no new
row, no failed statement — as the claim says; but submitting the same
name with different data — a different data fingerprint, as the last
conjunct shows — is also skipped and no second row is written, because
the insert violates the additional unique constraint
`uq_health_metric_payload_name` on (payload_id, name) declared at
models.py line 56, a violation the ON CONFLICT (payload_id, name,
data_hash) arbiter does not absorb, so the statement raises, is caught
at insert_logic.py line 230, and leaves the payload's transaction
aborted (second-to-last conjunct). The claim's promised second, distinct
metric row is never persisted. -/
theorem c3_same_name_different_data_eval :
    (insert_metric_idempotent envBenign metricSteps0 1 ⟨emptyDB, false⟩ 10).2.2 = true ∧
    (insert_metric_idempotent envBenign metricSteps0 1
        (insert_metric_idempotent envBenign metricSteps0 1 ⟨emptyDB, false⟩ 10).1
        (insert_metric_idempotent envBenign metricSteps0 1 ⟨emptyDB, false⟩ 10).2.1).2.2
      = false ∧
    (insert_metric_idempotent envBenign metricSteps0 1
        (insert_metric_idempotent envBenign metricSteps0 1 ⟨emptyDB, false⟩ 10).1
        (insert_metric_idempotent envBenign metricSteps0 1 ⟨emptyDB, false⟩ 10).2.1).1 =
      (insert_metric_idempotent envBenign metricSteps0 1 ⟨emptyDB, false⟩ 10).1 ∧
    (insert_metric_idempotent envBenign metricSteps2 1
        (insert_metric_idempotent envBenign metricSteps0 1 ⟨emptyDB, false⟩ 10).1
        (insert_metric_idempotent envBenign metricSteps0 1 ⟨emptyDB, false⟩ 10).2.1).2.2
      = false ∧
    (insert_metric_idempotent envBenign metricSteps2 1
        (insert_metric_idempotent envBenign metricSteps0 1 ⟨emptyDB, false⟩ 10).1
        (insert_metric_idempotent envBenign metricSteps0 1 ⟨emptyDB, false⟩ 10).2.1).1.db =
      (insert_metric_idempotent envBenign metricSteps0 1 ⟨emptyDB, false⟩ 10).1.db ∧
    (insert_metric_idempotent envBenign metricSteps2 1
        (insert_metric_idempotent envBenign metricSteps0 1 ⟨emptyDB, false⟩ 10).1
        (insert_metric_idempotent envBenign metricSteps0 1 ⟨emptyDB, false⟩ 10).2.1).1.aborted
      = true ∧
    generate_metric_hash metricSteps2.name metricSteps2.data ≠
      generate_metric_hash metricSteps0.name metricSteps0.data := by
  refine ⟨?_, ?_, ?_, ?_, ?_, ?_, ?_⟩ <;>
    simp +decide [insert_metric_idempotent, generate_metric_hash, canonicalize,
      canonEntries, canonList, sortEntries, List.insertionSort, List.orderedInsert,
      metricSteps0, metricSteps2, sampleEntry2, emptyDB, envBenign, entryLE]

/-- C6 refuted (code_bug evidence), evaluated at the failing input: a
three-metric payload whose middle metric's processing raises a storage
error scoped to it. The claim says that metric is counted skipped,
processing continues, the failure never propagates past the coordinator
and the other metrics' outcomes are unchanged — the contract the
per-metric `except`/skip/continue of insert_logic.py lines 124-131 and
230-232 is written to deliver. But the payload runs in a single
transaction with no savepoints, so the failed statement aborts it: the
third metric, which processes fine without the faulty one (third
conjunct, outcomes [true, true]), is dragged down to a skip (second
conjunct, outcomes [true, false, false] — its statements raise 25P02 in
the aborted transaction and are caught as another "skip"), and the
final commit raises, is rolled back and re-raised (first conjunct): the
run returns an error, the failure propagates past the coordinator, and
nothing persists — not even the first metric's rows. -/
theorem c6_per_metric_failure_isolation :
    insertHealthData envStepsFault payloadMixed sampleRaw 0 100 emptyDB =
      (emptyDB, .error .abortedTxnCommitFault) ∧
    (processMetrics envStepsFault payloadMixed.metrics 100
        ⟨admitState sampleRaw 0 100 emptyDB, false⟩ 101).2.2 = [true, false, false] ∧
    (processMetrics envStepsFault [metricHr, metricCal] 100
        ⟨admitState sampleRaw 0 100 emptyDB, false⟩ 101).2.2 = [true, true] := by
  refine ⟨?_, ?_, ?_⟩ <;>
    simp +decide [insertHealthData, check_payload_exists, upsertPayload, processMetrics,
      insert_metric_idempotent, generate_metric_hash, generate_payload_hash, canonicalize,
      canonEntries, canonList, sortEntries, List.insertionSort, List.orderedInsert,
      payloadMixed, metricHr, metricSteps0, metricCal, sampleRaw, emptyDB, envStepsFault,
      entryLE, admitState, tripleIn, pairIn]

/-- Refreshing `received_at` on rows that do not carry the conflicting
hash is the identity. -/
theorem payloads_map_received_id (l : List PayloadRow) (h : Json) (now : Nat)
    (hall : ∀ r ∈ l, (r.payloadHash == h) = false) :
    l.map (fun p => if p.payloadHash == h then { p with receivedAt := now } else p) = l := by
  induction l with
  | nil => rfl
  | cons a l ih =>
    simp only [List.map_cons, hall a (by simp), Bool.false_eq_true, if_false,
      ih (fun r hr => hall r (by simp [hr]))]

/-- C2: when two writers concurrently admit the identical payload —
under every serialization of their two store operations (existence check,
then conflict-aware admission insert) by the storage layer — exactly one
admission creates the payload row and the other receives the existing
row's id and skips all metric work: one writer ends admitted with its own
generated id, the other ends with the duplicate result carrying that same
id, zero metrics processed and its whole metric count skipped; afterwards
exactly one payload row carries that fingerprint. The schedules in which
both checks pass before either insert are resolved by the conflict-aware
insert itself (the returned-id comparison of insert_logic.py lines
112-121), not by the read-then-write check. -/
theorem c2_concurrent_admission (h : Json) (db : DB) (idA idB : Uuid)
    (nowA nowB : Nat) (nA nB : Nat) (s : List Bool)
    (hs : s ∈ ([[true, true, false, false], [true, false, true, false],
                [true, false, false, true], [false, true, true, false],
                [false, true, false, true], [false, false, true, true]] :
        List (List Bool)))
    (hfind : db.payloads.find? (fun r => r.payloadHash == h) = none)
    (hne : idA ≠ idB) :
    (((runSchedule h s db ⟨idA, nowA, nA, .start⟩ ⟨idB, nowB, nB, .start⟩).2.1.phase =
          .admitted idA ∧
        (runSchedule h s db ⟨idA, nowA, nA, .start⟩ ⟨idB, nowB, nB, .start⟩).2.2.phase =
          .dupDone ⟨.duplicate, idA, 0, nB⟩) ∨
      ((runSchedule h s db ⟨idA, nowA, nA, .start⟩ ⟨idB, nowB, nB, .start⟩).2.2.phase =
          .admitted idB ∧
        (runSchedule h s db ⟨idA, nowA, nA, .start⟩ ⟨idB, nowB, nB, .start⟩).2.1.phase =
          .dupDone ⟨.duplicate, idB, 0, nA⟩)) ∧
    (runSchedule h s db ⟨idA, nowA, nA, .start⟩ ⟨idB, nowB, nB, .start⟩).1.payloads.countP
        (fun r => r.payloadHash == h) = 1 := by
  have hall : ∀ r ∈ db.payloads, (r.payloadHash == h) = false := by
    intro r hr
    have := List.find?_eq_none.mp hfind r hr
    simpa using this
  have hzero : db.payloads.countP (fun r => r.payloadHash == h) = 0 :=
    List.countP_eq_zero.mpr (fun r hr => by simp [hall r hr])
  have hAB : (idB != idA) = true := bne_iff_ne.mpr (Ne.symm hne)
  have hBA : (idA != idB) = true := bne_iff_ne.mpr hne
  simp only [List.mem_cons, List.not_mem_nil, or_false] at hs
  rcases hs with rfl | rfl | rfl | rfl | rfl | rfl <;>
    simp [runSchedule, writerStep, check_payload_exists, upsertPayload, hfind,
      List.find?_append, payloads_map_received_id _ h _ hall, hAB, hBA,
      List.countP_append, hzero, List.countP_cons] <;>
    (intro a ha
     have hne2 : ¬ a.payloadHash = h := by simpa using hall a ha
     simp [hne2])

/-- Witness for C2 at the schedule in which both writers pass the
existence check before either inserts — the interleaving only the
conflict-aware insert resolves. -/
theorem c2_concurrent_admission_witness :
    (((runSchedule Json.null [true, false, true, false] emptyDB ⟨11, 1, 3, .start⟩
          ⟨22, 2, 5, .start⟩).2.1.phase = .admitted 11 ∧
        (runSchedule Json.null [true, false, true, false] emptyDB ⟨11, 1, 3, .start⟩
          ⟨22, 2, 5, .start⟩).2.2.phase = .dupDone ⟨.duplicate, 11, 0, 5⟩) ∨
      ((runSchedule Json.null [true, false, true, false] emptyDB ⟨11, 1, 3, .start⟩
          ⟨22, 2, 5, .start⟩).2.2.phase = .admitted 22 ∧
        (runSchedule Json.null [true, false, true, false] emptyDB ⟨11, 1, 3, .start⟩
          ⟨22, 2, 5, .start⟩).2.1.phase = .dupDone ⟨.duplicate, 22, 0, 3⟩)) ∧
    (runSchedule Json.null [true, false, true, false] emptyDB ⟨11, 1, 3, .start⟩
        ⟨22, 2, 5, .start⟩).1.payloads.countP (fun r => r.payloadHash == Json.null) = 1 :=
  c2_concurrent_admission Json.null emptyDB 11 22 1 2 3 5 [true, false, true, false]
    (by decide) rfl (by decide)

end SelfSensored
